import Mathlib

/-!
Verification of the stream query engine (`src/pytube/query.py`).

The embedding models a `Stream` descriptor as a record of the attributes the
engine reads, and `StreamQuery` as in the source: a sequence `fmt_streams`
together with the derived `itag_index` built by the dict comprehension
`{int(s.itag): s for s in fmt_streams}` in `__init__`.  Python's dict is
modelled as a lookup function built by a left fold over the sequence, which
is observationally faithful for the only dict operation the engine performs
(`self.itag_index[itag]` with `KeyError` mapped to `None`, i.e. `Option`).
-/

namespace pytube

/-- A stream descriptor: the attributes `StreamQuery` reads.  `itag` is kept
as an integer here; coercion of raw itag values is modelled separately in
the `Raw` namespace below. -/
structure Stream where
  itag : Int
  resolution : String
  fps : Int
  mime_type : String
  type : String
  subtype : String
  abr : String
  video_codec : String
  audio_codec : String
  includes_audio_track : Bool
  includes_video_track : Bool
  is_progressive : Bool
  is_adaptive : Bool
  deriving Repr, DecidableEq

/-- The dict comprehension `{int(s.itag): s for s in fmt_streams}` from
`StreamQuery.__init__`, as a lookup function: each descriptor in sequence
order overwrites the binding at its (integer) itag.  `int` on a value that
is already an integer is the identity, so the key is `s.itag`. -/
def buildItagIndex (fmt_streams : List Stream) : Int → Option Stream :=
  fmt_streams.foldl (fun d s => fun k => if k = s.itag then some s else d k)
    (fun _ => none)

/-- `StreamQuery`: the sequence of streams plus the itag index built at
construction. -/
structure StreamQuery where
  fmt_streams : List Stream
  itag_index : Int → Option Stream

/-- `StreamQuery.__init__`: store the sequence and build the index. -/
def StreamQuery.init (fmt_streams : List Stream) : StreamQuery :=
  ⟨fmt_streams, buildItagIndex fmt_streams⟩

/-- `get_by_itag`: `self.itag_index[itag]`, with `KeyError` caught and
turned into `None` (here: the lookup function already yields `none`). -/
def StreamQuery.get_by_itag (q : StreamQuery) (itag : Int) : Option Stream :=
  q.itag_index itag

/-- `first`: `self.fmt_streams[0]`, with `IndexError` caught → `None`. -/
def StreamQuery.first (q : StreamQuery) : Option Stream :=
  q.fmt_streams[0]?

/-- `last`: `self.fmt_streams[-1]`, with `IndexError` caught → `None`. -/
def StreamQuery.last (q : StreamQuery) : Option Stream :=
  q.fmt_streams.getLast?

/-- `count`: `len(self.fmt_streams)`. -/
def StreamQuery.count (q : StreamQuery) : Nat :=
  q.fmt_streams.length

/-- `all`: `return self.fmt_streams`. -/
def StreamQuery.all (q : StreamQuery) : List Stream :=
  q.fmt_streams

/-- `desc`: `StreamQuery(self.fmt_streams[::-1])` — slice reversal. -/
def StreamQuery.desc (q : StreamQuery) : StreamQuery :=
  StreamQuery.init q.fmt_streams.reverse

/-- `asc`: `return self`. -/
def StreamQuery.asc (q : StreamQuery) : StreamQuery :=
  q

/-! ### Filtering

`filter` takes sixteen optional keyword arguments.  They are bundled here in
a structure whose fields default to `none` (Python `None`).  Python tests
each argument with `if arg:` — truthiness, not a `None` check — so the
truthiness of each optional value type is modelled explicitly: `None`, `0`,
`""`, `False` and `[]` are falsy. -/

/-- Truthiness of an optional Python string: `None` and `""` are falsy. -/
def truthyStr : Option String → Bool
  | none => false
  | some s => s ≠ ""

/-- Truthiness of an optional Python int: `None` and `0` are falsy. -/
def truthyInt : Option Int → Bool
  | none => false
  | some n => n ≠ 0

/-- Truthiness of an optional Python bool: `None` and `False` are falsy. -/
def truthyBool : Option Bool → Bool
  | none => false
  | some b => b

/-- Truthiness of an optional Python list: `None` and `[]` are falsy. -/
def truthyList : Option (List α) → Bool
  | none => false
  | some l => !l.isEmpty

/-- Python `x or y` on optional strings: `x` if truthy, else `y`. -/
def pyOrStr (x y : Option String) : Option String :=
  if truthyStr x then x else y

/-- The keyword arguments of `StreamQuery.filter`, all defaulting to
`None`. -/
structure FilterArgs where
  fps : Option Int := none
  res : Option String := none
  resolution : Option String := none
  mime_type : Option String := none
  type : Option String := none
  subtype : Option String := none
  file_extension : Option String := none
  abr : Option String := none
  bitrate : Option String := none
  video_codec : Option String := none
  audio_codec : Option String := none
  only_audio : Option Bool := none
  only_video : Option Bool := none
  progressive : Option Bool := none
  adaptive : Option Bool := none
  custom_filter_functions : Option (List (Stream → Bool)) := none

/-- The `filters` list built by `StreamQuery.filter`, one entry per `if`
block, in source order.  Each guard is the Python truthiness test of the
corresponding argument(s); each predicate is the lambda appended there. -/
def mkFilters (a : FilterArgs) : List (Stream → Bool) :=
  (if truthyStr a.res || truthyStr a.resolution then
    [fun s => some s.resolution == pyOrStr a.res a.resolution] else [])
  ++ (if truthyInt a.fps then [fun s => some s.fps == a.fps] else [])
  ++ (if truthyStr a.mime_type then
    [fun s => some s.mime_type == a.mime_type] else [])
  ++ (if truthyStr a.type then [fun s => some s.type == a.type] else [])
  ++ (if truthyStr a.subtype || truthyStr a.file_extension then
    [fun s => some s.subtype == pyOrStr a.subtype a.file_extension] else [])
  ++ (if truthyStr a.abr || truthyStr a.bitrate then
    [fun s => some s.abr == pyOrStr a.abr a.bitrate] else [])
  ++ (if truthyStr a.video_codec then
    [fun s => some s.video_codec == a.video_codec] else [])
  ++ (if truthyStr a.audio_codec then
    [fun s => some s.audio_codec == a.audio_codec] else [])
  ++ (if truthyBool a.only_audio then
    [fun s => s.includes_audio_track && !s.includes_video_track] else [])
  ++ (if truthyBool a.only_video then
    [fun s => s.includes_video_track && !s.includes_audio_track] else [])
  ++ (if truthyBool a.progressive then [fun s => s.is_progressive] else [])
  ++ (if truthyBool a.adaptive then [fun s => s.is_adaptive] else [])
  ++ (if truthyList a.custom_filter_functions then
    a.custom_filter_functions.getD [] else [])

/-- `StreamQuery.filter`: build the `filters` list, then successively apply
each one (`fmt_streams = list(filter(fn, fmt_streams))`), and wrap the
result in a fresh `StreamQuery`. -/
def StreamQuery.filter (q : StreamQuery) (a : FilterArgs) : StreamQuery :=
  StreamQuery.init ((mkFilters a).foldl (fun l fn => l.filter fn) q.fmt_streams)

/-- Successive filtering by a list of predicates is one filter by their
conjunction. -/
theorem foldl_filter_eq_filter_all (fs : List (α → Bool)) (l : List α) :
    fs.foldl (fun l fn => l.filter fn) l =
      l.filter (fun s => fs.all (fun f => f s)) := by
  induction fs generalizing l with
  | nil => simp
  | cons f fs ih =>
      simp only [List.foldl_cons, ih, List.filter_filter]
      congr 1
      funext s
      simp [Bool.and_comm]

/-- C4: `filter` returns a Query whose sequence is exactly the original
sequence filtered by the conjunction of all contributed predicates (hence a
stable, order-preserving subsequence), and with no options specified the
result sequence is the full sequence. -/
theorem filter_conjunction_semantics (q : StreamQuery) (a : FilterArgs) :
    (q.filter a).fmt_streams =
        q.fmt_streams.filter (fun s => (mkFilters a).all (fun f => f s))
      ∧ (q.filter a).fmt_streams.Sublist q.fmt_streams
      ∧ (q.filter {}).fmt_streams = q.fmt_streams := by
  refine ⟨?_, ?_, ?_⟩
  · simp [StreamQuery.filter, StreamQuery.init, foldl_filter_eq_filter_all]
  · simp only [StreamQuery.filter, StreamQuery.init,
      foldl_filter_eq_filter_all]
    exact List.filter_sublist _
  · simp [StreamQuery.filter, StreamQuery.init, mkFilters, truthyStr,
      truthyInt, truthyBool, truthyList, foldl_filter_eq_filter_all]

/-- C8: a falsy but non-`None` argument (`fps=0`, `res=""`,
`progressive=False`) contributes no predicate: the resulting Query is the
same as with the argument omitted, for any values of the other
arguments. -/
theorem filter_falsy_arg_is_omitted (q : StreamQuery) (a : FilterArgs) :
    q.filter { a with fps := some 0 } = q.filter { a with fps := none }
    ∧ q.filter { a with res := some "" } = q.filter { a with res := none }
    ∧ q.filter { a with progressive := some false } =
        q.filter { a with progressive := none } := by
  refine ⟨?_, ?_, ?_⟩ <;>
    · unfold StreamQuery.filter
      congr 1

/-- A sample descriptor used for concrete evaluations. -/
def s720 : Stream :=
  { itag := 22, resolution := "720p", fps := 30, mime_type := "video/mp4",
    type := "video", subtype := "mp4", abr := "192kbps",
    video_codec := "vp9", audio_codec := "mp4a.40.2",
    includes_audio_track := true, includes_video_track := true,
    is_progressive := true, is_adaptive := false }

/-- C3 counterexample: with the primary `res` supplied non-null but falsy
(`""`) and the alias `resolution = "720p"`, the single predicate compares
against the alias's value: a stream with resolution `"720p"` survives even
though its resolution differs from the primary's value `""`. -/
theorem filter_alias_primary_counterexample :
    ((StreamQuery.init [s720]).filter
        { res := some "", resolution := some "720p" }).fmt_streams = [s720]
      ∧ s720.resolution ≠ "" := by
  constructor
  · decide
  · decide

/-- C3 amended: for each aliased pair (`res`/`resolution`,
`subtype`/`file_extension`, `abr`/`bitrate`), when both values are
supplied non-null, at most one predicate is added for the criterion: none
when both values are falsy (empty), otherwise exactly one, comparing
against the primary's value when the primary is truthy (non-empty) and
against the alias's value when the primary is falsy. -/
theorem filter_alias_single_predicate (q : StreamQuery) (x y : String) :
    ((q.filter { res := some x, resolution := some y }).fmt_streams
        = if x = "" ∧ y = "" then q.fmt_streams
          else q.fmt_streams.filter
            (fun s => s.resolution == (if x = "" then y else x)))
      ∧ ((q.filter { subtype := some x, file_extension := some y }).fmt_streams
        = if x = "" ∧ y = "" then q.fmt_streams
          else q.fmt_streams.filter
            (fun s => s.subtype == (if x = "" then y else x)))
      ∧ ((q.filter { abr := some x, bitrate := some y }).fmt_streams
        = if x = "" ∧ y = "" then q.fmt_streams
          else q.fmt_streams.filter
            (fun s => s.abr == (if x = "" then y else x))) := by
  refine ⟨?_, ?_, ?_⟩ <;>
    · by_cases hx : x = "" <;> by_cases hy : y = "" <;>
        simp [StreamQuery.filter, StreamQuery.init, mkFilters, truthyStr,
          truthyInt, truthyBool, truthyList, pyOrStr, hx, hy,
          foldl_filter_eq_filter_all]

/-! ### Ordering

`order_by` sorts by `getattr(s, attribute_name)`.  Attribute access by name
is fallible (`AttributeError` when the name is not an attribute), so it is
modelled in `Except`.  Python's `sorted(..., key=...)` first computes every
key in sequence order, then performs a stable ascending sort on the keys;
the stable sort is modelled by insertion sort `sortS`. -/

deriving instance DecidableEq for Except

/-- Errors the engine can surface. -/
inductive PyErr where
  | attributeError (name : String)
  | valueError (msg : String)
  deriving Repr, DecidableEq

/-- A Python attribute value: the engine only reads ints, strings and
bools. -/
inductive PyVal where
  | int (n : Int)
  | str (s : String)
  | bool (b : Bool)
  deriving Repr, DecidableEq

/-- The attribute namespace of a `Stream`: its named attributes and their
values. -/
def streamAttrs (s : Stream) : List (String × PyVal) :=
  [("itag", .int s.itag), ("resolution", .str s.resolution),
   ("fps", .int s.fps), ("mime_type", .str s.mime_type),
   ("type", .str s.type), ("subtype", .str s.subtype),
   ("abr", .str s.abr), ("video_codec", .str s.video_codec),
   ("audio_codec", .str s.audio_codec),
   ("includes_audio_track", .bool s.includes_audio_track),
   ("includes_video_track", .bool s.includes_video_track),
   ("is_progressive", .bool s.is_progressive),
   ("is_adaptive", .bool s.is_adaptive)]

/-- `getattr(s, name)`: look the name up in the attribute namespace; a name
that is not an attribute raises `AttributeError`. -/
def getattrS (s : Stream) (name : String) : Except PyErr PyVal :=
  match (streamAttrs s).find? (fun p => p.1 == name) with
  | some p => .ok p.2
  | none => .error (.attributeError name)

/-- Python `<=` on same-typed values (a `bool` compares as the int 0/1);
sort keys always come from one attribute, hence one type, so the
cross-type cases are never reached by `order_by`. -/
def pyLE : PyVal → PyVal → Bool
  | .int a, .int b => a ≤ b
  | .str a, .str b => a ≤ b
  | .bool a, .bool b => (if a then (1 : Int) else 0) ≤ (if b then 1 else 0)
  | .bool a, .int b => (if a then (1 : Int) else 0) ≤ b
  | .int a, .bool b => a ≤ (if b then (1 : Int) else 0)
  | _, _ => false

/-- Stable insertion: place `x` before the first element not below it, so
an element inserted later never jumps ahead of an equal earlier one. -/
def insertS (le : α → α → Bool) (x : α) : List α → List α
  | [] => [x]
  | y :: ys => if le x y then x :: y :: ys else y :: insertS le x ys

/-- Stable ascending sort (the model of Python's stable `sorted`). -/
def sortS (le : α → α → Bool) : List α → List α
  | [] => []
  | x :: xs => insertS le x (sortS le xs)

/-- Effectful map over a list, stopping at the first error (the model of a
Python loop or comprehension in which each step may raise). -/
def mapME (f : α → Except ε β) : List α → Except ε (List β)
  | [] => .ok []
  | x :: xs => do
      let y ← f x
      let ys ← mapME f xs
      pure (y :: ys)

/-- `order_by`: `sorted(self.fmt_streams, key=lambda s: getattr(s,
attribute_name))` wrapped in a fresh `StreamQuery`; `sorted` computes every
key first (raising `AttributeError` then if an attribute is missing), then
stable-sorts by key. -/
def StreamQuery.order_by (q : StreamQuery) (attribute_name : String) :
    Except PyErr StreamQuery := do
  let keyed ← mapME
    (fun s => (getattrS s attribute_name).map (fun v => (v, s)))
    q.fmt_streams
  pure (StreamQuery.init
    ((sortS (fun a b => pyLE a.1 b.1) keyed).map (fun p => p.2)))

/-- `mapME` succeeds pointwise. -/
theorem mapME_ok (f : α → Except ε β) (g : α → β) (l : List α)
    (h : ∀ s ∈ l, f s = .ok (g s)) : mapME f l = .ok (l.map g) := by
  induction l with
  | nil => rfl
  | cons x xs ih =>
      have hx := h x (List.mem_cons_self x xs)
      have hxs := ih (fun s hs => h s (List.mem_cons_of_mem x hs))
      simp only [mapME, hx, hxs, List.map_cons]
      rfl

/-- Inserting a decorated element into a decorated list is decorating the
plain insertion. -/
theorem insertS_map_decorate (leB : β → β → Bool) (f : α → β) (x : α)
    (l : List α) :
    insertS (fun a b => leB a.1 b.1) (f x, x) (l.map (fun s => (f s, s))) =
      (insertS (fun a b => leB (f a) (f b)) x l).map (fun s => (f s, s)) := by
  induction l with
  | nil => rfl
  | cons y ys ih =>
      simp only [List.map_cons, insertS]
      by_cases hle : leB (f x) (f y)
      · simp [hle]
      · simp [hle, ih]

/-- Decorate–sort–undecorate equals sorting by the key directly (both
sorts stable). -/
theorem sortS_map_decorate (leB : β → β → Bool) (f : α → β) (l : List α) :
    sortS (fun a b => leB a.1 b.1) (l.map (fun s => (f s, s))) =
      (sortS (fun a b => leB (f a) (f b)) l).map (fun s => (f s, s)) := by
  induction l with
  | nil => rfl
  | cons x xs ih =>
      simp only [List.map_cons, sortS, ih]
      exact insertS_map_decorate leB f x (sortS _ xs)

/-- Undecorating a decorated list gives the list back. -/
theorem map_snd_decorate (f : α → β) (l : List α) :
    (l.map (fun s => (f s, s))).map (fun p => p.2) = l := by
  induction l with
  | nil => rfl
  | cons x xs ih => simp [ih]

/-- C5: when the attribute resolves on every descriptor (to `key`),
`order_by` succeeds, its sequence is the stable ascending sort of `all()`
by that attribute, `order_by(attr).desc().all()` is that sort reversed, and
`desc` is always the structural reversal of the current sequence. -/
theorem order_by_desc_sorts_then_reverses (q : StreamQuery) (attr : String)
    (key : Stream → PyVal)
    (h : ∀ s ∈ q.fmt_streams, getattrS s attr = .ok (key s)) :
    ∃ q', q.order_by attr = .ok q'
      ∧ q'.all = sortS (fun a b => pyLE (key a) (key b)) q.all
      ∧ q'.desc.all = (sortS (fun a b => pyLE (key a) (key b)) q.all).reverse
      ∧ ∀ p : StreamQuery, p.desc.all = p.all.reverse := by
  have hmap : mapME
      (fun s => (getattrS s attr).map (fun v => (v, s))) q.fmt_streams =
      .ok (q.fmt_streams.map (fun s => (key s, s))) :=
    mapME_ok _ _ _ (fun s hs => by rw [h s hs]; rfl)
  refine ⟨StreamQuery.init ((sortS (fun a b => pyLE a.1 b.1)
      (q.fmt_streams.map (fun s => (key s, s)))).map (fun p => p.2)),
    ?_, ?_, ?_, fun p => rfl⟩
  · simp only [StreamQuery.order_by]
    rw [hmap]
    rfl
  · rw [sortS_map_decorate]
    exact map_snd_decorate key _
  · rw [sortS_map_decorate]
    exact congrArg List.reverse (map_snd_decorate key _)

/-- Witness for `order_by_desc_sorts_then_reverses`: sorting a concrete
stream list by `abr`. -/
theorem order_by_desc_sorts_then_reverses_witness :
    (∀ s ∈ (StreamQuery.init [s720]).fmt_streams,
        getattrS s "abr" = .ok (.str s.abr))
      ∧ ∃ q', (StreamQuery.init [s720]).order_by "abr" = .ok q'
        ∧ q'.all = sortS (fun a b => pyLE (.str a.abr) (.str b.abr))
            (StreamQuery.init [s720]).all
        ∧ q'.desc.all = (sortS (fun a b => pyLE (.str a.abr) (.str b.abr))
            (StreamQuery.init [s720]).all).reverse
        ∧ ∀ p : StreamQuery, p.desc.all = p.all.reverse :=
  ⟨by decide,
   order_by_desc_sorts_then_reverses (StreamQuery.init [s720]) "abr"
     (fun s => .str s.abr) (by decide)⟩

/-- `getattrS` only ever fails with an `AttributeError`. -/
theorem getattrS_error_is_attributeError (s : Stream) (name : String)
    (e : PyErr) (h : getattrS s name = .error e) :
    e = .attributeError name := by
  unfold getattrS at h
  cases hf : (streamAttrs s).find? (fun p => p.1 == name) with
  | some p => rw [hf] at h; cases h
  | none => rw [hf] at h; injection h with h2; exact h2.symm

/-- If some element fails, `mapME` fails with the error of the first
failing element (which is an error of one of the elements). -/
theorem mapME_error (f : α → Except ε β) (l : List α)
    (h : ∃ s ∈ l, ∃ e, f s = .error e) :
    ∃ e, mapME f l = .error e ∧ ∃ s ∈ l, f s = .error e := by
  induction l with
  | nil => simp at h
  | cons x xs ih =>
      cases hx : f x with
      | error e =>
          refine ⟨e, ?_, x, List.mem_cons_self x xs, hx⟩
          simp only [mapME]
          rw [hx]
          rfl
      | ok y =>
          have hxs : ∃ s ∈ xs, ∃ e, f s = .error e := by
            rcases h with ⟨s, hs, e, hse⟩
            rcases List.mem_cons.1 hs with rfl | hmem
            · rw [hx] at hse; exact absurd hse (by simp)
            · exact ⟨s, hmem, e, hse⟩
          rcases ih hxs with ⟨e, hme, s, hsmem, hse⟩
          refine ⟨e, ?_, s, List.mem_cons_of_mem x hsmem, hse⟩
          simp only [mapME]
          rw [hx, hme]
          rfl

/-- C6: if the named attribute is missing on some descriptor, `order_by`
propagates an `AttributeError` unmodified: the result is exactly the
attribute-access error of the first failing descriptor. -/
theorem order_by_missing_attribute_propagates (q : StreamQuery)
    (attr : String)
    (h : ∃ s ∈ q.fmt_streams, ∃ e, getattrS s attr = .error e) :
    q.order_by attr = .error (.attributeError attr)
      ∧ ∃ s ∈ q.fmt_streams, getattrS s attr = .error (.attributeError attr) := by
  have h' : ∃ s ∈ q.fmt_streams, ∃ e,
      (getattrS s attr).map (fun v => (v, s)) = .error e := by
    rcases h with ⟨s, hs, e, hse⟩
    exact ⟨s, hs, e, by rw [hse]; rfl⟩
  rcases mapME_error _ _ h' with ⟨e, hme, s, hsmem, hse⟩
  have he : getattrS s attr = .error e := by
    cases hg : getattrS s attr with
    | error e2 => rw [hg] at hse; injection hse with hse; rw [hse]
    | ok v => rw [hg] at hse; cases hse
  have heq : e = .attributeError attr :=
    getattrS_error_is_attributeError s attr e he
  subst heq
  refine ⟨?_, s, hsmem, he⟩
  simp only [StreamQuery.order_by]
  rw [hme]
  rfl

/-- Witness for `order_by_missing_attribute_propagates`: ordering by a
nonexistent attribute name. -/
theorem order_by_missing_attribute_propagates_witness :
    (∃ s ∈ (StreamQuery.init [s720]).fmt_streams, ∃ e,
        getattrS s "nonexistent" = .error e)
      ∧ (StreamQuery.init [s720]).order_by "nonexistent" =
          .error (.attributeError "nonexistent")
        ∧ ∃ s ∈ (StreamQuery.init [s720]).fmt_streams,
            getattrS s "nonexistent" = .error (.attributeError "nonexistent") :=
  ⟨⟨s720, by decide, .attributeError "nonexistent", by decide⟩,
   order_by_missing_attribute_propagates (StreamQuery.init [s720])
     "nonexistent"
     ⟨s720, by decide, .attributeError "nonexistent", by decide⟩⟩

/-- Last-write-wins unfolding of the index fold, for any accumulator. -/
theorem buildItagIndex_foldl (l : List Stream) (d : Int → Option Stream)
    (k : Int) :
    (l.foldl (fun d s => fun k => if k = s.itag then some s else d k) d) k =
      ((l.filter (fun s => s.itag = k)).getLast?).or (d k) := by
  induction l generalizing d with
  | nil => simp
  | cons x xs ih =>
      simp only [List.foldl_cons, List.filter_cons]
      by_cases hx : x.itag = k
      · rw [ih]
        simp only [hx, decide_eq_true_eq, if_pos rfl]
        cases h : (xs.filter (fun s => decide (s.itag = k))).getLast? with
        | none => simp [List.getLast?_cons, h, Option.or, hx]
        | some s => simp [List.getLast?_cons, h, Option.or]
      · have hk : ¬ k = x.itag := fun h => hx h.symm
        rw [ih]
        simp [hx, if_neg hk]

/-- C1: `get_by_itag` returns the last descriptor in the sequence with the
given itag, and `none` when no descriptor has it. -/
theorem get_by_itag_last_write_wins (l : List Stream) (itag : Int) :
    (StreamQuery.init l).get_by_itag itag =
      (l.filter (fun s => s.itag = itag)).getLast? := by
  unfold StreamQuery.init StreamQuery.get_by_itag buildItagIndex
  simp [buildItagIndex_foldl]

/-- C7: on an empty sequence, `first` and `last` return `none` (the
`IndexError` is caught inside them), not an error. -/
theorem first_last_empty_absent (q : StreamQuery) (h : q.fmt_streams = []) :
    q.first = none ∧ q.last = none := by
  simp [StreamQuery.first, StreamQuery.last, h]

/-- Witness for `first_last_empty_absent`: the empty query. -/
theorem first_last_empty_absent_witness :
    (StreamQuery.init []).fmt_streams = []
      ∧ (StreamQuery.init []).first = none
      ∧ (StreamQuery.init []).last = none :=
  ⟨rfl, (first_last_empty_absent (StreamQuery.init []) rfl).1,
    (first_last_empty_absent (StreamQuery.init []) rfl).2⟩

/-- C10: `desc` twice is the identity on the observable sequence, and
`asc` is the identity. -/
theorem desc_involution_asc_identity (q : StreamQuery) :
    q.desc.desc.all = q.all ∧ q.asc.all = q.all := by
  constructor
  · simp [StreamQuery.desc, StreamQuery.all, StreamQuery.init]
  · rfl

namespace RefModel

/-!
### Object-identity model for `all()`

`all` is `return self.fmt_streams`: it returns the internal list object
itself, not a copy.  To settle what a caller can do through that handle,
lists are given explicit object identity: a heap maps references to list
contents, a query holds a reference, and `all` returns that reference. -/

/-- A heap of Python list objects, addressed by reference. -/
def Heap := Nat → List Stream

/-- A query whose sequence lives in the heap; the index was computed at
construction and is held by value. -/
structure StreamQueryM where
  fmt_streams_ref : Nat
  itag_index : Int → Option Stream

/-- `all`: `return self.fmt_streams` — the very same list object the query
holds internally. -/
def allM (q : StreamQueryM) : Nat :=
  q.fmt_streams_ref

/-- A caller-side in-place mutation on a returned handle:
`handle.append(s)`. -/
def appendH (h : Heap) (r : Nat) (s : Stream) : Heap :=
  fun r2 => if r2 = r then h r ++ [s] else h r2

/-- The query's observable sequence in a given heap. -/
def seqOf (h : Heap) (q : StreamQueryM) : List Stream :=
  h q.fmt_streams_ref

/-- C2 counterexample: appending through the handle returned by `all()`
changes the query's own sequence — the caller can corrupt the Query's
internal state. -/
theorem all_handle_mutation_counterexample :
    seqOf
        (appendH (fun _ => []) (allM ⟨0, fun _ => none⟩) s720)
        ⟨0, fun _ => none⟩
      ≠ seqOf (fun _ => []) ⟨0, fun _ => none⟩ := by
  intro h
  simp [seqOf, appendH, allM] at h

/-- C2 amended: `all()` returns the internal sequence itself (an alias,
not a copy or read-only view); a mutation performed through the returned
handle is a mutation of the Query's sequence. -/
theorem all_returns_internal_alias (h : Heap) (q : StreamQueryM)
    (s : Stream) :
    allM q = q.fmt_streams_ref
      ∧ seqOf (appendH h (allM q) s) q = seqOf h q ++ [s] := by
  constructor
  · rfl
  · simp [seqOf, appendH, allM]

end RefModel

namespace Raw

/-!
### Raw-itag model for eager index construction

`__init__` computes `int(s.itag)` for every descriptor while building the
index, so a missing or non-coercible itag raises in the constructor — and
`filter`, `order_by` and `desc` all end in `StreamQuery(...)`, hence
construct eagerly too.  Here the itag attribute is kept raw (possibly
absent, possibly a string), so construction is fallible. -/

/-- A raw itag attribute value: an integer or a string. -/
inductive RawItag where
  | intv (n : Int)
  | strv (v : String)
  deriving Repr, DecidableEq

/-- Python `int(x)`: identity on an int; parses a decimal string, raising
`ValueError` when it does not parse. -/
def pyIntCoerce : RawItag → Except PyErr Int
  | .intv n => .ok n
  | .strv v =>
      match v.toInt? with
      | some n => .ok n
      | none => .error (.valueError v)

/-- A descriptor whose itag attribute may be absent (`none`) or raw;
`payload` stands for the rest of the descriptor. -/
structure StreamR where
  itagAttr : Option RawItag
  payload : Nat
  deriving Repr, DecidableEq

/-- `s.itag`: raises `AttributeError` when the attribute is absent. -/
def getItagR (s : StreamR) : Except PyErr RawItag :=
  match s.itagAttr with
  | some v => .ok v
  | none => .error (.attributeError "itag")

/-- `int(s.itag)` for one descriptor. -/
def itagKey (s : StreamR) : Except PyErr Int := do
  let v ← getItagR s
  pyIntCoerce v

/-- The dict comprehension `{int(s.itag): s for s in fmt_streams}`: the
keys are computed in sequence order and the first failure raises; on
success the index is the last-write-wins map. -/
def buildItagIndexR (l : List StreamR) :
    Except PyErr (Int → Option StreamR) := do
  let pairs ← mapME (fun s => (itagKey s).map (fun k => (k, s))) l
  pure (pairs.foldl
    (fun d p => fun k => if k = p.1 then some p.2 else d k) (fun _ => none))

/-- A constructed query in the raw model. -/
structure StreamQueryR where
  fmt_streams : List StreamR
  itag_index : Int → Option StreamR

/-- `__init__` in the raw model: building the index is the first (and
only fallible) step. -/
def initR (l : List StreamR) : Except PyErr StreamQueryR := do
  let idx ← buildItagIndexR l
  pure ⟨l, idx⟩

/-- `filter` in the raw model, specialised to the
`custom_filter_functions` predicate list (the built-in options contribute
predicates to the same fold, cf. `filter_conjunction_semantics`); it ends
in `StreamQuery(fmt_streams)`, i.e. `initR`. -/
def filterR (q : StreamQueryR) (fns : List (StreamR → Bool)) :
    Except PyErr StreamQueryR :=
  initR (fns.foldl (fun l fn => l.filter fn) q.fmt_streams)

/-- `order_by` in the raw model, with the `getattr` key already resolved
to `key` (key resolution is modelled in full in `StreamQuery.order_by`);
it ends in `StreamQuery(...)`, i.e. `initR`. -/
def orderByR (q : StreamQueryR) (key : StreamR → Int) :
    Except PyErr StreamQueryR :=
  initR (sortS (fun a b => key a ≤ key b) q.fmt_streams)

/-- `desc` in the raw model: `StreamQuery(self.fmt_streams[::-1])`. -/
def descR (q : StreamQueryR) : Except PyErr StreamQueryR :=
  initR q.fmt_streams.reverse

/-- `first` in the raw model: total — it cannot raise on any constructed
query (the `IndexError` is caught inside). -/
def firstR (q : StreamQueryR) : Option StreamR :=
  q.fmt_streams[0]?

/-- `last` in the raw model: total as well. -/
def lastR (q : StreamQueryR) : Option StreamR :=
  q.fmt_streams.getLast?

/-- If some descriptor's itag fails to resolve or coerce, `initR`
errors. -/
theorem initR_error_of_bad (l : List StreamR)
    (h : ∃ s ∈ l, ∃ e, itagKey s = .error e) :
    ∃ e, initR l = .error e := by
  have h' : ∃ s ∈ l, ∃ e,
      (itagKey s).map (fun k => (k, s)) = .error e := by
    rcases h with ⟨s, hs, e, hse⟩
    exact ⟨s, hs, e, by rw [hse]; rfl⟩
  rcases mapME_error _ _ h' with ⟨e, hme, -⟩
  refine ⟨e, ?_⟩
  simp only [initR, buildItagIndexR]
  rw [hme]
  rfl

/-- `mapME` succeeds when every element succeeds. -/
theorem mapME_isOk (f : α → Except ε β) (l : List α)
    (h : ∀ s ∈ l, ∃ y, f s = .ok y) :
    ∃ ys, mapME f l = .ok ys := by
  induction l with
  | nil => exact ⟨[], rfl⟩
  | cons x xs ih =>
      rcases h x (List.mem_cons_self x xs) with ⟨y, hy⟩
      rcases ih (fun s hs => h s (List.mem_cons_of_mem x hs)) with ⟨ys, hys⟩
      refine ⟨y :: ys, ?_⟩
      simp only [mapME]
      rw [hy, hys]
      rfl

/-- Membership is preserved by stable insertion. -/
theorem mem_insertS (le : α → α → Bool) (x y : α) (l : List α) :
    y ∈ insertS le x l ↔ y ∈ x :: l := by
  induction l with
  | nil => simp [insertS]
  | cons z zs ih =>
      simp only [insertS]
      by_cases hle : le x z
      · simp [hle]
      · simp only [hle, if_neg]
        simp [List.mem_cons, ih]
        tauto

/-- Membership is preserved by the stable sort. -/
theorem mem_sortS (le : α → α → Bool) (x : α) (l : List α) :
    x ∈ sortS le l ↔ x ∈ l := by
  induction l with
  | nil => simp [sortS]
  | cons z zs ih =>
      simp only [sortS]
      rw [mem_insertS]
      simp [List.mem_cons, ih]

/-- C9: construction coerces every itag while building the index, so a
missing or non-coercible itag raises eagerly at construction — from
`__init__` itself, and from `filter`, `order_by` and `desc`, which each
construct a fresh query from their result sequence; the terminal accessors
`first`/`last` are total and return the absent value instead of failing. -/
theorem construction_coerces_itags_eagerly :
    (∀ l : List StreamR, (∃ s ∈ l, ∃ e, itagKey s = .error e) →
        ∃ e, initR l = .error e)
      ∧ (∀ l : List StreamR, (∀ s ∈ l, ∃ k, itagKey s = .ok k) →
          ∃ q, initR l = .ok q ∧ q.fmt_streams = l
            ∧ firstR q = l[0]? ∧ lastR q = l.getLast?)
      ∧ (∀ (q : StreamQueryR) (fns : List (StreamR → Bool)),
          (∃ s ∈ fns.foldl (fun l fn => l.filter fn) q.fmt_streams,
              ∃ e, itagKey s = .error e) →
            ∃ e, filterR q fns = .error e)
      ∧ (∀ (q : StreamQueryR) (key : StreamR → Int),
          (∃ s ∈ q.fmt_streams, ∃ e, itagKey s = .error e) →
            ∃ e, orderByR q key = .error e)
      ∧ (∀ q : StreamQueryR,
          (∃ s ∈ q.fmt_streams, ∃ e, itagKey s = .error e) →
            ∃ e, descR q = .error e) := by
  refine ⟨initR_error_of_bad, ?_, ?_, ?_, ?_⟩
  · intro l h
    rcases mapME_isOk (fun s => (itagKey s).map (fun k => (k, s))) l
        (fun s hs => by
          rcases h s hs with ⟨k, hk⟩
          exact ⟨(k, s), by simp only [hk]; rfl⟩) with ⟨pairs, hpairs⟩
    refine ⟨⟨l, pairs.foldl
        (fun d p => fun k => if k = p.1 then some p.2 else d k)
        (fun _ => none)⟩, ?_, rfl, rfl, rfl⟩
    simp only [initR, buildItagIndexR]
    rw [hpairs]
    rfl
  · intro q fns h
    exact initR_error_of_bad _ h
  · intro q key h
    refine initR_error_of_bad _ ?_
    rcases h with ⟨s, hs, e, hse⟩
    exact ⟨s, (mem_sortS _ s _).2 hs, e, hse⟩
  · intro q h
    refine initR_error_of_bad _ ?_
    rcases h with ⟨s, hs, e, hse⟩
    exact ⟨s, List.mem_reverse.2 hs, e, hse⟩

/-- Witness for `construction_coerces_itags_eagerly`: a descriptor with
no itag attribute makes construction fail, and a good one constructs. -/
theorem construction_coerces_itags_eagerly_witness :
    (∃ s ∈ [StreamR.mk none 0], ∃ e, itagKey s = .error e)
      ∧ (∃ e, initR [StreamR.mk none 0] = .error e)
      ∧ (∀ s ∈ [StreamR.mk (some (.intv 22)) 0], ∃ k, itagKey s = .ok k)
      ∧ (∃ q, initR [StreamR.mk (some (.intv 22)) 0] = .ok q
          ∧ q.fmt_streams = [StreamR.mk (some (.intv 22)) 0]
          ∧ firstR q = [StreamR.mk (some (.intv 22)) 0][0]?
          ∧ lastR q = [StreamR.mk (some (.intv 22)) 0].getLast?) :=
  ⟨⟨StreamR.mk none 0, by decide, .attributeError "itag", by decide⟩,
   construction_coerces_itags_eagerly.1 _
     ⟨StreamR.mk none 0, by decide, .attributeError "itag", by decide⟩,
   fun s hs => by
     rcases List.mem_singleton.1 hs with rfl
     exact ⟨22, by decide⟩,
   construction_coerces_itags_eagerly.2.1 _
     (fun s hs => by
       rcases List.mem_singleton.1 hs with rfl
       exact ⟨22, by decide⟩)⟩

end Raw

end pytube
